import Mathlib

/-!
Verification of the xtdb driver-examples C harness against its specification.

The definitions below are shallow embeddings of the C sources:
  * src/c/xtdb_test.c — the conformance test harness (JSON object splitter,
    line-based transit loader, assertion kernel, fresh-table namer, and the
    per-test verification blocks), and
  * src/c/trades.c — the transactional batch-insert utility.

Statements in C that touch the database server are modelled by explicit
environments recording the outcome the server would give to each statement;
the embeddings reproduce the control flow of the C functions over those
environments (an ASSERT macro failure is an early return of the enclosing
test function).
-/

set_option maxHeartbeats 1000000

namespace Xtdb

/-! ## JSON object splitter (xtdb_test.c, test_json_with_oid, lines 261-315)

The C loop scans the file content byte by byte keeping brace_count,
obj_start, in_string and escape_next, and emits one [obj_start, i] span for
each top-level brace-balanced group.  obj_start = -1 is modelled as none.
-/

structure SplitState where
  braceCount : Int
  objStart : Option Nat
  inString : Bool
  escapeNext : Bool
deriving DecidableEq

def initState : SplitState := ⟨0, none, false, false⟩

/-- One iteration of the C scanning loop, at absolute index i on byte c.
Returns the updated state, and the emitted span (inclusive start/end
indices) when the byte closes a top-level object. -/
def splitStep (s : SplitState) (i : Nat) (c : Char) : SplitState × Option (Nat × Nat) :=
  if s.escapeNext then ({ s with escapeNext := false }, none)
  else if c = '\\' ∧ s.inString then ({ s with escapeNext := true }, none)
  else if c = '"' then ({ s with inString := !s.inString }, none)
  else if s.inString then (s, none)
  else if c = '\x7b' then
    ({ s with braceCount := s.braceCount + 1,
              objStart := if s.braceCount = 0 then some i else s.objStart }, none)
  else if c = '\x7d' then
    if s.braceCount - 1 = 0 ∧ s.objStart.isSome then
      ({ s with braceCount := s.braceCount - 1, objStart := none },
        some (s.objStart.getD 0, i))
    else ({ s with braceCount := s.braceCount - 1 }, none)
  else (s, none)

/-- Run the scanner from a given state and absolute position, collecting the
emitted spans in order. -/
def splitRun : SplitState → Nat → List Char → SplitState × List (Nat × Nat)
  | s, _, [] => (s, [])
  | s, i, c :: cs =>
    let r := splitStep s i c
    let rest := splitRun r.1 (i + 1) cs
    (rest.1, r.2.toList ++ rest.2)

/-- The spans of top-level JSON objects the C loop yields for a buffer. -/
def splitObjects (content : List Char) : List (Nat × Nat) :=
  (splitRun initState 0 content).2

/-- Projection of the scanner transition onto (depth, in-string, escape),
used to characterise brace-balanced object chunks. -/
def chunkStep : Int × Bool × Bool → Char → Int × Bool × Bool
  | (d, str, esc), c =>
    if esc then (d, str, false)
    else if c = '\\' ∧ str then (d, str, true)
    else if c = '"' then (d, !str, esc)
    else if str then (d, str, esc)
    else if c = '\x7b' then (d + 1, str, esc)
    else if c = '\x7d' then (d - 1, str, esc)
    else (d, str, esc)

/-- After an opening brace put the machine at depth d: the remaining bytes
form the rest of a single balanced object iff the depth stays at least 1
strictly inside and the final byte returns the machine exactly to
(0, false, false). -/
def chunkOkAux : Int × Bool × Bool → List Char → Bool
  | _, [] => false
  | s, [c] => decide (chunkStep s c = (0, false, false))
  | s, c :: c' :: cs =>
    decide (1 ≤ (chunkStep s c).1) && chunkOkAux (chunkStep s c) (c' :: cs)

/-- A serialized top-level JSON object at the byte level: an opening brace
followed by a string-aware brace-balanced body ending on the matching
closing brace. -/
def isObjChunk : List Char → Bool
  | '\x7b' :: rest => chunkOkAux (1, false, false) rest
  | _ => false

/-- Interleave separator runs and object chunks:
glue ws0 [(o1, ws1), (o2, ws2), ...] = ws0 ++ o1 ++ ws1 ++ o2 ++ ws2 ++ ... -/
def glue : List Char → List (List Char × List Char) → List Char
  | ws0, [] => ws0
  | ws0, item :: rest => ws0 ++ item.1 ++ glue item.2 rest

/-- The spans the splitter is expected to yield on a glued buffer: one span
per object chunk, from its first byte through its last byte inclusive. -/
def expectedSpans : Nat → List Char → List (List Char × List Char) → List (Nat × Nat)
  | _, _, [] => []
  | pos, ws0, item :: rest =>
    (pos + ws0.length, pos + ws0.length + item.1.length - 1) ::
      expectedSpans (pos + ws0.length + item.1.length) item.2 rest

def wsOnly (l : List Char) : Bool :=
  l.all (fun c => c == ' ' || c == '\t' || c == '\n' || c == '\r')

/-! ## Substring presence (the strstr checks of the verification blocks) -/

/-- Bool version of strstr(hay, needle) != NULL. -/
def containsSub (needle : List Char) : List Char → Bool
  | [] => needle.isEmpty
  | c :: rest => needle.isPrefixOf (c :: rest) || containsSub needle rest

/-! ## Line loader of the transit tests (xtdb_test.c lines 377-397 / 465-485) -/

def isLeadWs (c : Char) : Bool := c == ' ' || c == '\t' || c == '\n'

def isTrailWs (c : Char) : Bool := c == ' ' || c == '\n' || c == '\r'

/-- The trimming the C loop applies to each fgets line: skip leading
spaces/tabs/newlines, then strip trailing spaces/newlines/carriage-returns. -/
def trimLine (l : List Char) : List Char :=
  ((l.dropWhile isLeadWs).reverse.dropWhile isTrailWs).reverse

/-- The insert loop of the transit tests: trim each line, skip lines that are
empty after trimming, insert the others; insOk n is the server outcome of the
n-th insert (ASSERT aborts the test on the first failure, yielding none).
Returns the list of inserted payloads. -/
def loadTransit (insOk : Nat → Bool) : List (List Char) → Nat → Option (List (List Char))
  | [], _ => some []
  | l :: ls, n =>
    let t := trimLine l
    if t.isEmpty then loadTransit insOk ls n
    else if insOk n then (loadTransit insOk ls (n + 1)).map (fun r => t :: r)
    else none

/-- The insert loop of test_json_with_oid over the spans yielded by the
splitter; returns the final inserted count, or none when an insert fails
(ASSERT aborts the test). -/
def runInserts (insOk : Nat → Bool) : List (Nat × Nat) → Nat → Option Nat
  | [], n => some n
  | _ :: rest, n => if insOk n then runInserts insOk rest (n + 1) else none

/-! ## Verification blocks of the tests

A result row is a list of cells; each cell is the text libpq would return.
ResultData collects the responses the queries of a test can observe.
-/

structure ResultData where
  aliceRows : List (List (List Char))
  countStr : List Char
  orderedRows : List (List (List Char))
deriving DecidableEq

def cell (row : List (List Char)) (i : Nat) : List Char := row.getD i []

/-- The post-load verification block shared verbatim by test_json_with_oid
(lines 320-354) and test_transit_with_oid (lines 402-436): one row for alice,
six scalar equalities, substring checks on tags and metadata, and the
COUNT(*) query returning "3". -/
def aliceFullVerify (rd : ResultData) : Bool :=
  rd.aliceRows.length == 1 &&
  (let r := rd.aliceRows.getD 0 [];
    cell r 0 == ("alice".toList) &&
    cell r 1 == ("Alice Smith".toList) &&
    cell r 2 == ("30".toList) &&
    cell r 3 == ("t".toList) &&
    cell r 4 == ("alice@example.com".toList) &&
    cell r 5 == ("125000.5".toList) &&
    containsSub ("admin".toList) (cell r 6) &&
    containsSub ("developer".toList) (cell r 6) &&
    containsSub ("Engineering".toList) (cell r 7) &&
    containsSub ("5".toList) (cell r 7) &&
    containsSub ("2020-01-15".toList) (cell r 7)) &&
  rd.countStr == ("3".toList)

/-- The post-load verification block of test_transit_msgpack_copy_from
(lines 711-718): exactly 3 ordered rows, and _id, name, age of the first. -/
def msgpackCopyVerify (rd : ResultData) : Bool :=
  rd.orderedRows.length == 3 &&
  (let r := rd.orderedRows.getD 0 [];
    cell r 0 == ("alice".toList) &&
    cell r 1 == ("Alice Smith".toList) &&
    cell r 2 == ("30".toList))

/-- The verification block of test_transit_nest_one_full_record
(lines 495-525) on the rows of the NEST_ONE query. -/
def nestOneVerify (rows : List (List Char)) : Bool :=
  rows.length == 1 &&
  (let record := rows.getD 0 [];
    containsSub ("alice".toList) record &&
    containsSub ("Alice Smith".toList) record &&
    containsSub ("30".toList) record &&
    (containsSub ("true".toList) record || containsSub ("t".toList) record) &&
    containsSub ("alice@example.com".toList) record &&
    containsSub ("125000.5".toList) record &&
    containsSub ("admin".toList) record &&
    containsSub ("developer".toList) record &&
    containsSub ("Engineering".toList) record &&
    containsSub ("5".toList) record &&
    (containsSub ("~#time/zoned-date-time".toList) record &&
      containsSub ("2020-01-15".toList) record))

/-! ## The scoped-setting tests (C1) and the json_with_oid test (C5) -/

/-- Environment of the two tests that SET fallback_output_format: the
outcome of the SET statement, of fopen, of each insert, of the SELECT and
COUNT statements, and the returned result data. -/
structure ScopedEnv where
  setOk : Bool
  fileOpens : Bool
  fileLines : List (List Char)
  insertOk : Nat → Bool
  selectOk : Bool
  countOk : Bool
  rd : ResultData
  nestRows : List (List Char)

/-- test_transit_with_oid (lines 359-445) as a function of its environment.
Returns (test passed, RESET fallback_output_format was executed).  Every
ASSERT failure is an early return before the RESET statement. -/
def test_transit_with_oid (e : ScopedEnv) : Bool × Bool :=
  if e.setOk = false then (false, false)
  else if e.fileOpens = false then (false, false)
  else
    match loadTransit e.insertOk e.fileLines 0 with
    | none => (false, false)
    | some ins =>
      if ins.length == 3 && e.selectOk && e.countOk && aliceFullVerify e.rd
      then (true, true) else (false, false)

/-- test_transit_nest_one_full_record (lines 447-542) as a function of its
environment, returning (test passed, RESET was executed). -/
def test_transit_nest_one_full_record (e : ScopedEnv) : Bool × Bool :=
  if e.setOk = false then (false, false)
  else if e.fileOpens = false then (false, false)
  else
    match loadTransit e.insertOk e.fileLines 0 with
    | none => (false, false)
    | some ins =>
      if ins.length == 3 && e.selectOk && nestOneVerify e.nestRows
      then (true, true) else (false, false)

structure JsonEnv where
  fileOpens : Bool
  content : List Char
  insertOk : Nat → Bool
  selectOk : Bool
  countOk : Bool
  rd : ResultData

/-- test_json_with_oid (lines 242-357) as a function of its environment:
split the file content into top-level objects, insert each, assert that
exactly 3 records were inserted, then run the alice verification block. -/
def test_json_with_oid (e : JsonEnv) : Bool :=
  if e.fileOpens = false then false
  else
    match runInserts e.insertOk (splitObjects e.content) 0 with
    | none => false
    | some n => n == 3 && e.selectOk && e.countOk && aliceFullVerify e.rd

/-! ## Assertion kernel and runner (ASSERT / PASS macros, main) -/

/-- A test case as the ordered list of its assertion conditions.  The ASSERT
macro increments the fail counter and returns on the first false condition;
the terminal PASS() increments the pass counter. -/
def runCase : List Bool → Nat → Nat → Nat × Nat
  | [], p, f => (p + 1, f)
  | c :: cs, p, f => if c then runCase cs p f else (p, f + 1)

/-- The RUN_TEST sequence of main: every case runs, sharing the counters. -/
def runSuite : List (List Bool) → Nat → Nat → Nat × Nat
  | [], p, f => (p, f)
  | cs :: rest, p, f =>
    let r := runCase cs p f
    runSuite rest r.1 r.2

/-! ## Fresh-table namer (get_clean_table, lines 45-50) -/

/-- Decimal rendering of a nonnegative integer, as snprintf %ld / %d. -/
def natDigits (n : Nat) : List Char :=
  if h : n < 10 then [Char.ofNat (48 + n)]
  else natDigits (n / 10) ++ [Char.ofNat (48 + n % 10)]
decreasing_by
  exact Nat.div_lt_self (by omega) (by omega)

/-- Left inverse of natDigits: decimal value of a digit string. -/
def digitsVal (l : List Char) : Nat :=
  l.foldl (fun a c => a * 10 + (c.toNat - 48)) 0

/-- The characters snprintf produces for "test_table_%ld_%d" with arguments
secs = time(NULL) and r % 10000 = rand() % 10000. -/
def tableNameChars (secs r : Nat) : List Char :=
  ("test_table_".toList) ++ natDigits secs ++ '_' :: natDigits (r % 10000)

/-- get_clean_table as a function of the two values it samples. -/
def get_clean_table (secs r : Nat) : String :=
  String.mk (tableNameChars secs r)

/-- The names produced over a run, one invocation per (secs, rand) sample. -/
def runTableNames (calls : List (Nat × Nat)) : List String :=
  calls.map (fun p => get_clean_table p.1 p.2)

/-! ## trades.c: transactional batch insert -/

structure TradeInfo where
  id : Int
  name : Option String
  quantity : Int
  jsonInfo : Option String
deriving DecidableEq

/-- Server-side state: rows committed to the trades table, rows pending in
the open transaction, and whether a transaction is open. -/
structure DBState where
  committed : List TradeInfo
  pending : List TradeInfo
  inTx : Bool
deriving DecidableEq

/-- Environment: health of the connection, server outcome of BEGIN and
COMMIT, per-row server outcome of the INSERT, and the value of the
shutdown_requested flag observed at each loop iteration. -/
structure BatchEnv where
  connOk : Bool
  beginOk : Bool
  commitOk : Bool
  serverOk : Nat → Bool
  shutdownAt : Nat → Bool

/-- validate_trade (trades.c lines 315-330): NULL checks and quantity > 0. -/
def validate_trade : Option TradeInfo → Bool
  | none => false
  | some t => t.name.isSome && t.jsonInfo.isSome && decide (0 < t.quantity)

def begin_transaction (e : BatchEnv) (st : DBState) : Bool × DBState :=
  if e.connOk = false then (false, st)
  else if e.beginOk then (true, { st with inTx := true }) else (false, st)

/-- COMMIT: on success the pending rows become durable; on failure the
transaction is aborted and nothing of it remains. -/
def commit_transaction (e : BatchEnv) (st : DBState) : Bool × DBState :=
  if e.connOk = false then (false, st)
  else if e.commitOk then (true, ⟨st.committed ++ st.pending, [], false⟩)
  else (false, ⟨st.committed, [], false⟩)

def rollback_transaction (e : BatchEnv) (st : DBState) : Bool × DBState :=
  if e.connOk = false then (false, st)
  else (true, ⟨st.committed, [], false⟩)

/-- insert_trade (trades.c lines 332-372) at loop index i: connection check,
validation, then the parameterized INSERT whose server outcome is
e.serverOk i. -/
def insert_trade (e : BatchEnv) (i : Nat) (t : Option TradeInfo) (st : DBState) :
    Bool × DBState :=
  if e.connOk = false then (false, st)
  else if validate_trade t = false then (false, st)
  else
    match t with
    | none => (false, st)
    | some tr =>
      if e.serverOk i then (true, { st with pending := st.pending ++ [tr] })
      else (false, st)

/-- The loop of insert_trades_batch: check shutdown_requested, insert, and
roll back on the first failure. -/
def batchLoop (e : BatchEnv) : List (Option TradeInfo) → Nat → DBState → Bool × DBState
  | [], _, st => (true, st)
  | t :: ts, i, st =>
    if e.shutdownAt i then (false, (rollback_transaction e st).2)
    else
      if (insert_trade e i t st).1 then batchLoop e ts (i + 1) (insert_trade e i t st).2
      else (false, (rollback_transaction e (insert_trade e i t st).2).2)

/-- insert_trades_batch (trades.c lines 374-412). -/
def insert_trades_batch (e : BatchEnv) (trades : Option (List (Option TradeInfo)))
    (st : DBState) : Bool × DBState :=
  if e.connOk = false then (false, st)
  else
    match trades with
    | none => (false, st)
    | some ts =>
      if ts.isEmpty then (false, st)
      else if (begin_transaction e st).1 = false then (false, (begin_transaction e st).2)
      else if (batchLoop e ts 0 (begin_transaction e st).2).1 = false then
        (false, (batchLoop e ts 0 (begin_transaction e st).2).2)
      else commit_transaction e (batchLoop e ts 0 (begin_transaction e st).2).2

/-- Specification-side success condition of the batch loop: no shutdown is
observed and every row validates and is accepted by the server. -/
def loopGood (e : BatchEnv) : List (Option TradeInfo) → Nat → Bool
  | [], _ => true
  | t :: ts, i =>
    !e.shutdownAt i && e.connOk && validate_trade t && e.serverOk i &&
      loopGood e ts (i + 1)

/-! ## Concrete response data used by counterexamples and witnesses -/

/-- A row satisfying every check of the alice verification block. -/
def goodAliceRow : List (List Char) :=
  [("alice".toList), ("Alice Smith".toList), ("30".toList), ("t".toList),
   ("alice@example.com".toList), ("125000.5".toList),
   ("admin developer".toList), ("Engineering level 5 joined 2020-01-15".toList)]

/-- Three ordered rows as the msgpack COPY test selects them. -/
def goodOrderedRows : List (List (List Char)) :=
  [[("alice".toList), ("Alice Smith".toList), ("30".toList)],
   [("bob".toList), ("Bob Jones".toList), ("25".toList)],
   [("charlie".toList), ("Charlie Brown".toList), ("35".toList)]]

/-- Response data passing both verification blocks. -/
def goodResultData : ResultData := ⟨[goodAliceRow], ("3".toList), goodOrderedRows⟩

/-- Like goodResultData, but the email cell of the alice row is wrong. -/
def wrongEmailData : ResultData :=
  ⟨[[("alice".toList), ("Alice Smith".toList), ("30".toList), ("t".toList),
     ("wrong@example.com".toList), ("125000.5".toList),
     ("admin developer".toList), ("Engineering level 5 joined 2020-01-15".toList)]],
   ("3".toList), goodOrderedRows⟩

/-- Three complete objects followed by a trailing unbalanced opening brace. -/
def c5Content : List Char := ("\x7b\x7d \x7b\x7d \x7b\x7d \x7b".toList)

end Xtdb

namespace Xtdb

/-! ## Helper lemmas -/

lemma isPrefixOf_true_iff (n : List Char) : ∀ m : List Char,
    n.isPrefixOf m = true ↔ ∃ t, n ++ t = m := by
  induction n with
  | nil => intro m; simp [List.isPrefixOf]
  | cons a as ih =>
    intro m
    cases m with
    | nil => simp [List.isPrefixOf]
    | cons b bs =>
      simp only [List.isPrefixOf, Bool.and_eq_true, beq_iff_eq, ih bs]
      constructor
      · rintro ⟨rfl, t, rfl⟩; exact ⟨t, rfl⟩
      · rintro ⟨t, h⟩
        simp only [List.cons_append, List.cons.injEq] at h
        exact ⟨h.1, t, h.2⟩

lemma containsSub_true_iff (n : List Char) : ∀ h : List Char,
    containsSub n h = true ↔ ∃ s t, s ++ n ++ t = h := by
  intro h
  induction h with
  | nil =>
    simp only [containsSub, List.isEmpty_iff]
    constructor
    · rintro rfl; exact ⟨[], [], rfl⟩
    · rintro ⟨s, t, hst⟩
      simp only [List.append_eq_nil] at hst
      exact hst.1.2
  | cons c r ih =>
    simp only [containsSub, Bool.or_eq_true, isPrefixOf_true_iff, ih]
    constructor
    · rintro (⟨t, ht⟩ | ⟨s, t, hst⟩)
      · exact ⟨[], t, by simpa using ht⟩
      · exact ⟨c :: s, t, by simp [hst]⟩
    · rintro ⟨s, t, hst⟩
      cases s with
      | nil => exact Or.inl ⟨t, hst⟩
      | cons a s' =>
        simp only [List.cons_append, List.cons.injEq] at hst
        exact Or.inr ⟨s', t, hst.2⟩

lemma all_takeWhile_self (p : Char → Bool) (l : List Char) :
    (l.takeWhile p).all p = true := by
  simp only [List.all_eq_true]
  intro x hx
  exact List.mem_takeWhile_imp hx

lemma head_dropWhile_not (p : Char → Bool) (l : List Char) :
    ((l.dropWhile p).head?.all fun c => !p c) = true := by
  induction l with
  | nil => rfl
  | cons c cs ih =>
    by_cases h : p c = true
    · simpa [List.dropWhile_cons, h] using ih
    · simp [List.dropWhile_cons, h, Bool.eq_false_iff.mpr h]

end Xtdb

namespace Xtdb

lemma loadTransit_all_ok (lines : List (List Char)) : ∀ n : Nat,
    loadTransit (fun _ => true) lines n =
      some ((lines.map trimLine).filter fun t => !t.isEmpty) := by
  induction lines with
  | nil => intro n; rfl
  | cons l ls ih =>
    intro n
    by_cases h : (trimLine l).isEmpty = true
    · simp [loadTransit, h, ih n]
    · simp [loadTransit, h, ih (n + 1), Bool.eq_false_iff.mpr h]

lemma runInserts_some (insOk : Nat → Bool) :
    ∀ (l : List (Nat × Nat)) (n m : Nat), runInserts insOk l n = some m → m = n + l.length := by
  intro l
  induction l with
  | nil =>
    intro n m h
    simp only [runInserts, Option.some.injEq] at h
    simp [← h]
  | cons sp rest ih =>
    intro n m h
    simp only [runInserts] at h
    by_cases hi : insOk n = true
    · rw [if_pos hi] at h
      have := ih (n + 1) m h
      simp only [List.length_cons, this]
      omega
    · rw [if_neg hi] at h
      exact absurd h (by simp)

/-- Claim C10: when loading the transit-text fixture line by line, each line
is trimmed of leading spaces/tabs/newlines and trailing
spaces/newlines/carriage-returns (the trimmed line is an inner segment of
the original line, the removed prefix consists of leading-whitespace
characters, the removed suffix of trailing-whitespace characters, and
nothing more is removed: the trimmed line neither starts with a
leading-whitespace character nor ends with a trailing-whitespace
character); lines empty after trimming are skipped without inserting, and
the inserted records are exactly the trimmed forms of the non-blank lines,
so their count equals the number of non-blank lines. -/
theorem c10_line_loader :
    (∀ l : List Char,
      (∃ p s, l = p ++ trimLine l ++ s ∧ p.all isLeadWs = true ∧ s.all isTrailWs = true) ∧
      ((trimLine l).head?.all fun c => !isLeadWs c) = true ∧
      ((trimLine l).getLast?.all fun c => !isTrailWs c) = true) ∧
    (∀ (lines : List (List Char)) (n : Nat),
      loadTransit (fun _ => true) lines n =
        some ((lines.map trimLine).filter fun t => !t.isEmpty)) := by
  refine ⟨fun l => ?_, fun lines n => loadTransit_all_ok lines n⟩
  have hrev : trimLine l ++ ((l.dropWhile isLeadWs).reverse.takeWhile isTrailWs).reverse
      = l.dropWhile isLeadWs := by
    simp only [trimLine]
    rw [← List.reverse_append, List.takeWhile_append_dropWhile, List.reverse_reverse]
  refine ⟨⟨l.takeWhile isLeadWs,
      ((l.dropWhile isLeadWs).reverse.takeWhile isTrailWs).reverse, ?_, ?_, ?_⟩, ?_, ?_⟩
  · conv_lhs => rw [← List.takeWhile_append_dropWhile (p := isLeadWs) (l := l)]
    rw [List.append_assoc, hrev]
  · exact all_takeWhile_self isLeadWs l
  · rw [List.all_reverse]
    exact all_takeWhile_self isTrailWs _
  · cases htl : trimLine l with
    | nil => rfl
    | cons a t =>
      have h1 : (l.dropWhile isLeadWs).head? = some a := by
        rw [← hrev, htl]; rfl
      have h2 := head_dropWhile_not isLeadWs l
      rw [h1] at h2
      simpa using h2
  · have h1 : (trimLine l).getLast?
        = ((l.dropWhile isLeadWs).reverse.dropWhile isTrailWs).head? := by
      simp [trimLine]
    rw [h1]
    exact head_dropWhile_not isTrailWs _

/-- Claim C3: the NEST_ONE verification block of
test_transit_nest_one_full_record succeeds exactly when the query returned
one single row whose one composite cell contains, as substrings, every
scalar of the alice record ("alice", "Alice Smith", "30", the boolean
rendering "true" or "t", "alice@example.com", "125000.5"), every nested
substring ("admin", "developer", "Engineering", "5", "2020-01-15"), and the
literal transit tag for zoned date-times. -/
theorem c3_nest_one_verification (rows : List (List Char)) :
    nestOneVerify rows = true ↔
      ∃ r, rows = [r] ∧
        (∃ s t, s ++ ("alice".toList) ++ t = r) ∧
        (∃ s t, s ++ ("Alice Smith".toList) ++ t = r) ∧
        (∃ s t, s ++ ("30".toList) ++ t = r) ∧
        ((∃ s t, s ++ ("true".toList) ++ t = r) ∨ (∃ s t, s ++ ("t".toList) ++ t = r)) ∧
        (∃ s t, s ++ ("alice@example.com".toList) ++ t = r) ∧
        (∃ s t, s ++ ("125000.5".toList) ++ t = r) ∧
        (∃ s t, s ++ ("admin".toList) ++ t = r) ∧
        (∃ s t, s ++ ("developer".toList) ++ t = r) ∧
        (∃ s t, s ++ ("Engineering".toList) ++ t = r) ∧
        (∃ s t, s ++ ("5".toList) ++ t = r) ∧
        (∃ s t, s ++ ("~#time/zoned-date-time".toList) ++ t = r) ∧
        (∃ s t, s ++ ("2020-01-15".toList) ++ t = r) := by
  have key : ∀ r : List Char, nestOneVerify [r]
      = (containsSub ("alice".toList) r &&
          containsSub ("Alice Smith".toList) r &&
          containsSub ("30".toList) r &&
          (containsSub ("true".toList) r || containsSub ("t".toList) r) &&
          containsSub ("alice@example.com".toList) r &&
          containsSub ("125000.5".toList) r &&
          containsSub ("admin".toList) r &&
          containsSub ("developer".toList) r &&
          containsSub ("Engineering".toList) r &&
          containsSub ("5".toList) r &&
          (containsSub ("~#time/zoned-date-time".toList) r &&
            containsSub ("2020-01-15".toList) r)) := fun r => rfl
  cases rows with
  | nil =>
    constructor
    · intro h
      exact absurd h (by rw [show nestOneVerify [] = false from rfl]; simp)
    · rintro ⟨r, heq, -⟩
      exact absurd heq (by simp)
  | cons a t =>
    cases t with
    | nil =>
      rw [key a]
      simp only [Bool.and_eq_true, Bool.or_eq_true, containsSub_true_iff, and_assoc]
      constructor
      · intro h
        exact ⟨a, rfl, h⟩
      · rintro ⟨r, heq, h⟩
        injection heq with h1 h2
        subst h1
        exact h
    | cons b t2 =>
      constructor
      · intro h
        exact absurd h (by rw [show nestOneVerify (a :: b :: t2) = false from rfl]; simp)
      · rintro ⟨r, heq, -⟩
        exact absurd heq (by simp)

end Xtdb

namespace Xtdb

/-- Claim C6 counterexample: in the case [true, false] the first assertion
condition holds, yet the pass counter stays 0 (the final tally is (0, 1)):
the ASSERT macro never increments the pass counter on success, contradicting
the claim that every assertion increments the pass counter when its
condition holds. -/
theorem c6_assert_counterexample : runCase [true, false] 0 0 = (0, 1) := rfl

/-- Claim C6 (amended): an assertion leaves both counters untouched on
success and increments the fail counter exactly once at the first failing
condition, aborting the case (later conditions are never consulted); the
pass counter is incremented once per case, by the terminal PASS(), exactly
when every assertion of the case held; every case contributes exactly one
tally, so the runner continues with the next case after a failure. -/
theorem c6_assert_counters :
    (∀ (asserts : List Bool) (p f : Nat),
      runCase asserts p f = if asserts.all id = true then (p + 1, f) else (p, f + 1)) ∧
    (∀ (suite : List (List Bool)) (p f : Nat),
      (runSuite suite p f).1 + (runSuite suite p f).2 = p + f + suite.length) := by
  have h1 : ∀ (asserts : List Bool) (p f : Nat),
      runCase asserts p f = if asserts.all id = true then (p + 1, f) else (p, f + 1) := by
    intro asserts
    induction asserts with
    | nil => intro p f; simp [runCase]
    | cons c cs ih =>
      intro p f
      cases c
      · simp [runCase]
      · simp [runCase, ih p f]
  refine ⟨h1, fun suite => ?_⟩
  induction suite with
  | nil => intro p f; simp [runSuite]
  | cons cs rest ih =>
    intro p f
    simp only [runSuite]
    rw [h1 cs p f]
    by_cases h : cs.all id = true
    · rw [if_pos h, ih]
      simp [List.length_cons]
      omega
    · rw [if_neg h, ih]
      simp [List.length_cons]
      omega

/-- Claim C1 counterexample: an execution of test_transit_with_oid (and of
test_transit_nest_one_full_record) in which the SET statement succeeds (so
fallback_output_format is now 'transit') but the fixture file fails to open:
the ASSERT aborts the case and the RESET statement is never executed
(second component false), contradicting reset on every exit path. -/
theorem c1_reset_skipped_counterexample :
    (ScopedEnv.mk true false [] (fun _ => true) true true goodResultData []).setOk = true ∧
    test_transit_with_oid
      (ScopedEnv.mk true false [] (fun _ => true) true true goodResultData []) =
      (false, false) ∧
    test_transit_nest_one_full_record
      (ScopedEnv.mk true false [] (fun _ => true) true true goodResultData []) =
      (false, false) :=
  ⟨rfl, rfl, rfl⟩

/-- Claim C1 (amended): in both tests that set fallback_output_format, the
RESET statement is executed exactly on the fully passing path; any early
exit (SET failure, fixture failure, insert failure, or any later assertion
failure) returns with the setting still in force. -/
theorem c1_reset_only_on_pass (e : ScopedEnv) :
    (test_transit_with_oid e).2 = (test_transit_with_oid e).1 ∧
    (test_transit_nest_one_full_record e).2 = (test_transit_nest_one_full_record e).1 := by
  constructor
  · unfold test_transit_with_oid
    split_ifs <;> try rfl
    split
    · rfl
    · split_ifs <;> rfl
  · unfold test_transit_nest_one_full_record
    split_ifs <;> try rfl
    split
    · rfl
    · split_ifs <;> rfl

/-- Claim C2 counterexample: response data in which alice's email cell is
wrong but the three ordered rows are as expected: the verification of
test_transit_msgpack_copy_from accepts it while the verification block of
test_json_with_oid rejects it, so the msgpack COPY case does not perform
verification identical to the JSON-parameter case (its checks do not cover
all six scalar columns, the nested substrings, or the count). -/
theorem c2_msgpack_verification_counterexample :
    msgpackCopyVerify wrongEmailData = true ∧ aliceFullVerify wrongEmailData = false := by
  constructor
  · decide
  · decide

/-- Claim C2 (amended): the JSON-parameter case verifies the full alice
record — one row, all six scalar columns, the nested tags and metadata
substrings, and a COUNT(*) of "3" — while the transit-msgpack COPY case
verifies only that the ordered select returns exactly three rows whose
first row has _id "alice", name "Alice Smith" and age "30"; the msgpack
verification is strictly weaker, not identical. -/
theorem c2_verification_characterization :
    (∀ rd : ResultData, msgpackCopyVerify rd = true ↔
      (rd.orderedRows.length = 3 ∧
        cell (rd.orderedRows.getD 0 []) 0 = ("alice".toList) ∧
        cell (rd.orderedRows.getD 0 []) 1 = ("Alice Smith".toList) ∧
        cell (rd.orderedRows.getD 0 []) 2 = ("30".toList))) ∧
    (∀ rd : ResultData, aliceFullVerify rd = true ↔
      (rd.aliceRows.length = 1 ∧
        cell (rd.aliceRows.getD 0 []) 0 = ("alice".toList) ∧
        cell (rd.aliceRows.getD 0 []) 1 = ("Alice Smith".toList) ∧
        cell (rd.aliceRows.getD 0 []) 2 = ("30".toList) ∧
        cell (rd.aliceRows.getD 0 []) 3 = ("t".toList) ∧
        cell (rd.aliceRows.getD 0 []) 4 = ("alice@example.com".toList) ∧
        cell (rd.aliceRows.getD 0 []) 5 = ("125000.5".toList) ∧
        (∃ s t, s ++ ("admin".toList) ++ t = cell (rd.aliceRows.getD 0 []) 6) ∧
        (∃ s t, s ++ ("developer".toList) ++ t = cell (rd.aliceRows.getD 0 []) 6) ∧
        (∃ s t, s ++ ("Engineering".toList) ++ t = cell (rd.aliceRows.getD 0 []) 7) ∧
        (∃ s t, s ++ ("5".toList) ++ t = cell (rd.aliceRows.getD 0 []) 7) ∧
        (∃ s t, s ++ ("2020-01-15".toList) ++ t = cell (rd.aliceRows.getD 0 []) 7) ∧
        rd.countStr = ("3".toList))) ∧
    (∃ rd : ResultData, msgpackCopyVerify rd = true ∧ aliceFullVerify rd = false) := by
  refine ⟨fun rd => ?_, fun rd => ?_, ⟨wrongEmailData, by decide, by decide⟩⟩
  · simp only [msgpackCopyVerify, Bool.and_eq_true, beq_iff_eq, and_assoc]
  · simp only [aliceFullVerify, Bool.and_eq_true, beq_iff_eq, containsSub_true_iff, and_assoc]

end Xtdb

namespace Xtdb

/-! ## Fresh-table namer lemmas -/

lemma char_digit_toNat (k : Nat) (hk : k < 10) : (Char.ofNat (48 + k)).toNat = 48 + k := by
  interval_cases k <;> decide

lemma digitsVal_natDigits (n : Nat) : digitsVal (natDigits n) = n := by
  induction n using Nat.strong_induction_on with
  | _ n ih =>
    by_cases h : n < 10
    · rw [natDigits, dif_pos h]
      simp [digitsVal, char_digit_toNat n h]
    · rw [natDigits, dif_neg h]
      have hd : n / 10 < n := Nat.div_lt_self (by omega) (by omega)
      have h10 : n % 10 < 10 := Nat.mod_lt _ (by omega)
      simp only [digitsVal, List.foldl_append, List.foldl_cons, List.foldl_nil]
      rw [show List.foldl (fun a c => a * 10 + (c.toNat - 48)) 0 (natDigits (n / 10))
          = digitsVal (natDigits (n / 10)) from rfl]
      rw [ih (n / 10) hd, char_digit_toNat (n % 10) h10]
      omega

lemma natDigits_inj {m n : Nat} (h : natDigits m = natDigits n) : m = n := by
  have := congrArg digitsVal h
  rwa [digitsVal_natDigits, digitsVal_natDigits] at this

lemma natDigits_no_underscore (n : Nat) : ∀ c ∈ natDigits n, ¬ c = '_' := by
  induction n using Nat.strong_induction_on with
  | _ n ih =>
    intro c hc
    by_cases h : n < 10
    · rw [natDigits, dif_pos h] at hc
      simp only [List.mem_singleton] at hc
      subst hc
      intro heq
      have h1 := char_digit_toNat n h
      rw [heq] at h1
      have h2 : ('_' : Char).toNat = 95 := rfl
      omega
    · rw [natDigits, dif_neg h] at hc
      rcases List.mem_append.mp hc with h1 | h2
      · exact ih (n / 10) (Nat.div_lt_self (by omega) (by omega)) c h1
      · simp only [List.mem_singleton] at h2
        subst h2
        intro heq
        have h10 : n % 10 < 10 := Nat.mod_lt _ (by omega)
        have h1 := char_digit_toNat (n % 10) h10
        rw [heq] at h1
        have h2 : ('_' : Char).toNat = 95 := rfl
        omega

lemma split_at_underscore : ∀ (a1 a2 b1 b2 : List Char),
    (∀ c ∈ a1, ¬ c = '_') → (∀ c ∈ a2, ¬ c = '_') →
    a1 ++ '_' :: b1 = a2 ++ '_' :: b2 → a1 = a2 ∧ b1 = b2 := by
  intro a1
  induction a1 with
  | nil =>
    intro a2 b1 b2 h1 h2 heq
    cases a2 with
    | nil => simpa using heq
    | cons x a2' =>
      exfalso
      simp only [List.nil_append, List.cons_append, List.cons.injEq] at heq
      exact h2 x (List.mem_cons_self x a2') heq.1.symm
  | cons x a1' ih =>
    intro a2 b1 b2 h1 h2 heq
    cases a2 with
    | nil =>
      exfalso
      simp only [List.cons_append, List.nil_append, List.cons.injEq] at heq
      exact h1 x (List.mem_cons_self x a1') heq.1
    | cons y a2' =>
      simp only [List.cons_append, List.cons.injEq] at heq
      obtain ⟨rfl, heq'⟩ := heq
      have hr := ih a2' b1 b2 (fun c hc => h1 c (List.mem_cons_of_mem _ hc))
        (fun c hc => h2 c (List.mem_cons_of_mem _ hc)) heq'
      exact ⟨by rw [hr.1], hr.2⟩

lemma natDigits_ne_nil (n : Nat) : natDigits n ≠ [] := by
  by_cases h : n < 10
  · rw [natDigits, dif_pos h]; simp
  · rw [natDigits, dif_neg h]; simp

lemma natDigits_length_le : ∀ (k n : Nat), n < 10 ^ (k + 1) → (natDigits n).length ≤ k + 1 := by
  intro k
  induction k with
  | zero =>
    intro n hn
    rw [natDigits, dif_pos (by simpa using hn)]
    simp
  | succ k ih =>
    intro n hn
    by_cases h : n < 10
    · rw [natDigits, dif_pos h]
      simp
    · rw [natDigits, dif_neg h]
      have hA : n < 10 ^ (k + 1) * 10 := by
        rw [← pow_succ]
        exact hn
      have hlt : n / 10 < 10 ^ (k + 1) := by omega
      have hlen := ih (n / 10) hlt
      simp only [List.length_append, List.length_cons, List.length_nil]
      omega

/-- Claim C7 counterexample: a run in which two distinct invocations of
get_clean_table observe the same time(NULL) second and the same rand()
draw: positions 0 and 1 of the produced name list carry equal strings, so
the names of a run are not pairwise distinct. -/
theorem c7_distinct_names_counterexample :
    runTableNames [(1700000000, 1234), (1700000000, 1234)] =
      [get_clean_table 1700000000 1234, get_clean_table 1700000000 1234] ∧
    (runTableNames [(1700000000, 1234), (1700000000, 1234)]).getD 0 (String.mk []) =
      (runTableNames [(1700000000, 1234), (1700000000, 1234)]).getD 1 (String.mk []) :=
  ⟨rfl, rfl⟩

/-- Claim C7 (amended): two invocations of the namer return distinct
strings exactly when their sampled inputs differ, i.e. the name determines
(and is determined by) the pair of the observed second and the random draw
modulo 10000; distinctness is therefore not guaranteed for all runs, only
for runs whose sampled pairs are pairwise distinct. -/
theorem c7_fresh_name_distinct_iff (s1 r1 s2 r2 : Nat) :
    get_clean_table s1 r1 = get_clean_table s2 r2 ↔ (s1 = s2 ∧ r1 % 10000 = r2 % 10000) := by
  constructor
  · intro h
    have hl : tableNameChars s1 r1 = tableNameChars s2 r2 := congrArg String.data h
    simp only [tableNameChars, List.append_assoc] at hl
    have hl2 := List.append_cancel_left hl
    have hsplit := split_at_underscore (natDigits s1) (natDigits s2)
      (natDigits (r1 % 10000)) (natDigits (r2 % 10000))
      (natDigits_no_underscore s1) (natDigits_no_underscore s2) hl2
    exact ⟨natDigits_inj hsplit.1, natDigits_inj hsplit.2⟩
  · rintro ⟨rfl, hmod⟩
    simp [get_clean_table, tableNameChars, hmod]

/-- Claim C8 counterexample: for a rand() draw of 7 the random suffix
renders as the single digit "7", not as exactly four digits: the produced
name is test_table_1_7 and the suffix has length 1. -/
theorem c8_four_digit_counterexample :
    get_clean_table 1 7 = String.mk ("test_table_1_7".toList) ∧
    (natDigits (7 % 10000)).length = 1 := by
  have hm : (7 : Nat) % 10000 = 7 := by norm_num
  have h7 : natDigits 7 = ['7'] := by
    rw [natDigits, dif_pos (by norm_num)]
  have h1 : natDigits 1 = ['1'] := by
    rw [natDigits, dif_pos (by norm_num)]
  constructor
  · show String.mk (tableNameChars 1 7) = String.mk ("test_table_1_7".toList)
    rw [tableNameChars, hm, h7, h1]
    decide
  · rw [hm, h7]
    rfl

/-- Claim C8 (amended): every produced name is test_table_<secs>_<suffix>
where <secs> is the decimal rendering of the observed second and <suffix>
is the decimal rendering of rand() % 10000, an integer in [0, 9999]
rendered without zero padding, hence with one to four digits (not always
exactly four). -/
theorem c8_table_name_shape (secs r : Nat) :
    get_clean_table secs r =
      String.mk (("test_table_".toList) ++ natDigits secs ++ '_' :: natDigits (r % 10000)) ∧
    r % 10000 < 10000 ∧
    1 ≤ (natDigits (r % 10000)).length ∧ (natDigits (r % 10000)).length ≤ 4 := by
  refine ⟨rfl, Nat.mod_lt _ (by norm_num), ?_, ?_⟩
  · cases h : natDigits (r % 10000) with
    | nil => exact absurd h (natDigits_ne_nil (r % 10000))
    | cons a t => simp
  · have hm : r % 10000 < 10000 := Nat.mod_lt _ (by norm_num)
    have h4 : (10 : Nat) ^ (3 + 1) = 10000 := by norm_num
    exact natDigits_length_le 3 (r % 10000) (by rw [h4]; exact hm)

end Xtdb

namespace Xtdb

/-! ## Batch-insert lemmas -/

lemma rollback_committed (e : BatchEnv) (st : DBState) :
    ((rollback_transaction e st).2).committed = st.committed := by
  unfold rollback_transaction
  split_ifs <;> rfl

lemma insert_trade_committed (e : BatchEnv) (i : Nat) (t : Option TradeInfo) (st : DBState) :
    ((insert_trade e i t st).2).committed = st.committed := by
  cases t with
  | none => unfold insert_trade; split_ifs <;> rfl
  | some tr => unfold insert_trade; split_ifs <;> rfl

lemma insert_trade_fst (e : BatchEnv) (i : Nat) (t : Option TradeInfo) (st : DBState) :
    (insert_trade e i t st).1 = (e.connOk && validate_trade t && e.serverOk i) := by
  cases t with
  | none =>
    unfold insert_trade
    split_ifs with h1 h2 <;> simp_all [validate_trade]
  | some tr =>
    unfold insert_trade
    split_ifs with h1 h2 h3 <;> simp_all

lemma insert_trade_true_snd (e : BatchEnv) (i : Nat) (t : Option TradeInfo) (st : DBState)
    (h : (insert_trade e i t st).1 = true) :
    ∃ tr, t = some tr ∧
      (insert_trade e i t st).2 = { st with pending := st.pending ++ [tr] } := by
  cases t with
  | none =>
    rw [insert_trade_fst] at h
    simp [validate_trade] at h
  | some tr =>
    refine ⟨tr, rfl, ?_⟩
    unfold insert_trade at h ⊢
    split_ifs at h ⊢
    simp_all

lemma batchLoop_committed (e : BatchEnv) :
    ∀ (ts : List (Option TradeInfo)) (i : Nat) (st : DBState),
    ((batchLoop e ts i st).2).committed = st.committed := by
  intro ts
  induction ts with
  | nil => intro i st; rfl
  | cons t ts ih =>
    intro i st
    unfold batchLoop
    split_ifs with hs hr
    · exact rollback_committed e st
    · rw [ih (i + 1) (insert_trade e i t st).2]
      exact insert_trade_committed e i t st
    · rw [rollback_committed]
      exact insert_trade_committed e i t st

lemma batchLoop_fst (e : BatchEnv) :
    ∀ (ts : List (Option TradeInfo)) (i : Nat) (st : DBState),
    (batchLoop e ts i st).1 = loopGood e ts i := by
  intro ts
  induction ts with
  | nil => intro i st; rfl
  | cons t ts ih =>
    intro i st
    unfold batchLoop loopGood
    by_cases hs : e.shutdownAt i = true
    · simp [hs]
    · rw [if_neg hs]
      simp only [Bool.not_eq_true] at hs
      rw [insert_trade_fst]
      cases hcn : e.connOk <;> cases hv : validate_trade t <;> cases hsv : e.serverOk i <;>
        simp [hs, hcn, hv, hsv, ih]

lemma batchLoop_true_snd (e : BatchEnv) :
    ∀ (ts : List (Option TradeInfo)) (i : Nat) (st : DBState),
    (batchLoop e ts i st).1 = true →
    (batchLoop e ts i st).2 = { st with pending := st.pending ++ ts.filterMap id } := by
  intro ts
  induction ts with
  | nil => intro i st h; simp [batchLoop]
  | cons t ts ih =>
    intro i st h
    unfold batchLoop at h ⊢
    by_cases hs : e.shutdownAt i = true
    · rw [if_pos hs] at h
      exact absurd h (by simp)
    · rw [if_neg hs] at h ⊢
      cases hr : (insert_trade e i t st).1 with
      | false =>
        rw [if_neg (by simp [hr])] at h
        exact absurd h (by simp)
      | true =>
        rw [if_pos (by simp [hr])] at h ⊢
        obtain ⟨tr, rfl, hsnd⟩ := insert_trade_true_snd e i t st hr
        rw [ih (i + 1) _ h, hsnd]
        simp [List.filterMap_cons]

lemma filterMap_id_map_some (ts : List TradeInfo) : (ts.map some).filterMap id = ts := by
  induction ts with
  | nil => rfl
  | cons t ts ih => simp [List.filterMap_cons, ih]

/-- Claim C9: the batch trade insertion is transactional and atomic.  The
batch succeeds exactly when the connection is healthy, the batch is
nonempty, BEGIN succeeds, no shutdown is observed and every row validates
and is accepted (loopGood), and COMMIT succeeds; when it returns true the
whole batch has been committed in order, and when it returns false
(including any single insert failing, shutdown mid-batch, or COMMIT
failing) the committed rows are exactly what they were before the call —
no trade of the batch remains committed. -/
theorem c9_batch_atomicity (e : BatchEnv) (ts : List TradeInfo) (st : DBState)
    (hp : st.pending = []) :
    ((insert_trades_batch e (some (ts.map some)) st).1 =
      (e.connOk && !ts.isEmpty && e.beginOk && loopGood e (ts.map some) 0 && e.commitOk)) ∧
    ((insert_trades_batch e (some (ts.map some)) st).1 = true →
      ((insert_trades_batch e (some (ts.map some)) st).2).committed = st.committed ++ ts) ∧
    ((insert_trades_batch e (some (ts.map some)) st).1 = false →
      ((insert_trades_batch e (some (ts.map some)) st).2).committed = st.committed) := by
  obtain ⟨cm, pd, tx⟩ := st
  obtain rfl : pd = [] := hp
  by_cases hc : e.connOk = false
  · simp [insert_trades_batch, hc]
  · simp only [Bool.not_eq_false] at hc
    by_cases hts : ts = []
    · subst hts
      simp [insert_trades_batch, hc]
    · have hne : (ts.map some).isEmpty = false := by
        cases ts with
        | nil => exact absurd rfl hts
        | cons a l => rfl
      have hne' : ts.isEmpty = false := by
        cases ts with
        | nil => exact absurd rfl hts
        | cons a l => rfl
      by_cases hb : e.beginOk = true
      · have hbegin : begin_transaction e (DBState.mk cm [] tx) =
            (true, DBState.mk cm [] true) := by
          unfold begin_transaction
          rw [if_neg (by simp [hc]), if_pos hb]
        by_cases hl : loopGood e (ts.map some) 0 = true
        · have hfst : (batchLoop e (ts.map some) 0 (DBState.mk cm [] true)).1 = true := by
            rw [batchLoop_fst]; exact hl
          have hsnd := batchLoop_true_snd e (ts.map some) 0 (DBState.mk cm [] true) hfst
          rw [filterMap_id_map_some] at hsnd
          simp only [insert_trades_batch, hbegin, hne, hfst, hsnd]
          by_cases hco : e.commitOk = true
          · simp [commit_transaction, hc, hco, hb, hl, hne']
          · simp only [Bool.not_eq_true] at hco
            simp [commit_transaction, hc, hco, hb, hl, hne']
        · have hfst : (batchLoop e (ts.map some) 0 (DBState.mk cm [] true)).1 = false := by
            rw [batchLoop_fst]
            simpa using hl
          have hcom := batchLoop_committed e (ts.map some) 0 (DBState.mk cm [] true)
          simp only [insert_trades_batch, hbegin, hne, hfst]
          simp only [Bool.not_eq_true] at hl
          simp [hc, hb, hl, hne', hcom]
      · have hbegin : begin_transaction e (DBState.mk cm [] tx) =
            (false, DBState.mk cm [] tx) := by
          unfold begin_transaction
          rw [if_neg (by simp [hc]), if_neg hb]
        simp only [Bool.not_eq_true] at hb
        simp [insert_trades_batch, hbegin, hne, hne', hc, hb]

end Xtdb

namespace Xtdb

/-! ## Splitter lemmas -/

lemma splitStep_mk (d : Int) (o : Option Nat) (str esc : Bool) (i : Nat) (c : Char) :
    splitStep ⟨d, o, str, esc⟩ i c =
      if esc then (⟨d, o, str, false⟩, none)
      else if c = '\\' ∧ str then (⟨d, o, str, true⟩, none)
      else if c = '"' then (⟨d, o, !str, esc⟩, none)
      else if str then (⟨d, o, str, esc⟩, none)
      else if c = '\x7b' then (⟨d + 1, if d = 0 then some i else o, str, esc⟩, none)
      else if c = '\x7d' then
        if d - 1 = 0 ∧ o.isSome then (⟨d - 1, none, str, esc⟩, some (o.getD 0, i))
        else (⟨d - 1, o, str, esc⟩, none)
      else (⟨d, o, str, esc⟩, none) := rfl

lemma splitStep_emit (d : Int) (str esc : Bool) (i0 pos : Nat) (c : Char)
    (hd : 1 ≤ d) (hst : chunkStep (d, str, esc) c = (0, false, false)) :
    splitStep ⟨d, some i0, str, esc⟩ pos c = (initState, some (i0, pos)) := by
  rw [splitStep_mk]
  simp only [chunkStep] at hst
  split_ifs at hst ⊢ <;>
    simp_all [initState, Prod.mk.injEq] <;>
    omega

lemma splitStep_no_emit (d d' : Int) (str esc str' esc' : Bool) (i0 pos : Nat) (c : Char)
    (hd : 1 ≤ d) (hst : chunkStep (d, str, esc) c = (d', str', esc')) (hd' : 1 ≤ d') :
    splitStep ⟨d, some i0, str, esc⟩ pos c = (⟨d', some i0, str', esc'⟩, none) := by
  rw [splitStep_mk]
  simp only [chunkStep] at hst
  split_ifs at hst ⊢ <;>
    simp_all [Prod.mk.injEq] <;>
    omega

end Xtdb

namespace Xtdb

lemma splitRun_obj_inner :
    ∀ (suffix : List Char) (d : Int) (str esc : Bool) (i0 pos : Nat),
    1 ≤ d →
    chunkOkAux (d, str, esc) suffix = true →
    splitRun ⟨d, some i0, str, esc⟩ pos suffix =
      (initState, [(i0, pos + suffix.length - 1)]) := by
  intro suffix
  induction suffix with
  | nil =>
    intro d str esc i0 pos hd hok
    exact absurd hok (by simp [chunkOkAux])
  | cons c cs ih =>
    intro d str esc i0 pos hd hok
    cases cs with
    | nil =>
      simp only [chunkOkAux, decide_eq_true_eq] at hok
      have hstep := splitStep_emit d str esc i0 pos c hd hok
      simp [splitRun, hstep]
    | cons c' cs' =>
      simp only [chunkOkAux, Bool.and_eq_true, decide_eq_true_eq] at hok
      obtain ⟨h1, hok'⟩ := hok
      rcases hchunk : chunkStep (d, str, esc) c with ⟨d', str', esc'⟩
      rw [hchunk] at h1 hok'
      have hstep := splitStep_no_emit d d' str esc str' esc' i0 pos c hd hchunk h1
      have hrec := ih d' str' esc' i0 (pos + 1) h1 hok'
      calc splitRun ⟨d, some i0, str, esc⟩ pos (c :: c' :: cs')
          = ((splitRun (⟨d', some i0, str', esc'⟩ : SplitState) (pos + 1) (c' :: cs')).1,
              (none : Option (Nat × Nat)).toList ++
                (splitRun (⟨d', some i0, str', esc'⟩ : SplitState) (pos + 1) (c' :: cs')).2) := by
            rw [show splitRun ⟨d, some i0, str, esc⟩ pos (c :: c' :: cs') =
                ((splitRun (splitStep ⟨d, some i0, str, esc⟩ pos c).1 (pos + 1) (c' :: cs')).1,
                  (splitStep ⟨d, some i0, str, esc⟩ pos c).2.toList ++
                    (splitRun (splitStep ⟨d, some i0, str, esc⟩ pos c).1 (pos + 1)
                      (c' :: cs')).2) from rfl]
            rw [hstep]
        _ = (initState, [(i0, pos + 1 + (c' :: cs').length - 1)]) := by
            rw [hrec]
            simp
        _ = (initState, [(i0, pos + (c :: c' :: cs').length - 1)]) := by
            simp only [List.length_cons]
            have harith : pos + 1 + (cs'.length + 1) - 1 = pos + (cs'.length + 1 + 1) - 1 := by
              omega
            rw [harith]

lemma splitRun_append : ∀ (xs ys : List Char) (s : SplitState) (pos : Nat),
    splitRun s pos (xs ++ ys) =
      ((splitRun (splitRun s pos xs).1 (pos + xs.length) ys).1,
        (splitRun s pos xs).2 ++ (splitRun (splitRun s pos xs).1 (pos + xs.length) ys).2) := by
  intro xs
  induction xs with
  | nil =>
    intro ys s pos
    simp [splitRun]
  | cons c cs ih =>
    intro ys s pos
    have hlen : pos + (c :: cs).length = (pos + 1) + cs.length := by
      simp only [List.length_cons]
      omega
    simp only [List.cons_append, splitRun, List.append_eq]
    rw [ih ys (splitStep s pos c).1 (pos + 1), hlen]
    simp [List.append_assoc]

lemma splitRun_ws : ∀ (ws : List Char) (pos : Nat), wsOnly ws = true →
    splitRun initState pos ws = (initState, []) := by
  intro ws
  induction ws with
  | nil => intro pos _; rfl
  | cons c cs ih =>
    intro pos h
    simp only [wsOnly, List.all_cons, Bool.and_eq_true] at h
    obtain ⟨hc, hcs⟩ := h
    have hstep : splitStep initState pos c = (initState, none) := by
      simp only [Bool.or_eq_true, beq_iff_eq] at hc
      rcases hc with ((rfl | rfl) | rfl) | rfl <;> rfl
    have hrec := ih pos.succ hcs
    simp [splitRun, hstep, hrec]

lemma splitRun_obj : ∀ (o : List Char) (pos : Nat), isObjChunk o = true →
    splitRun initState pos o = (initState, [(pos, pos + o.length - 1)]) := by
  intro o pos ho
  unfold isObjChunk at ho
  split at ho
  case h_2 => exact absurd ho (by simp)
  case h_1 x rest =>
    have hopen : splitStep initState pos '\x7b' = (⟨1, some pos, false, false⟩, none) := rfl
    have hrec := splitRun_obj_inner rest 1 false false pos (pos + 1) (by omega) ho
    simp only [splitRun, hopen, hrec, Option.toList_none, List.nil_append, List.length_cons]
    have harith : pos + 1 + rest.length - 1 = pos + (rest.length + 1) - 1 := by omega
    rw [harith]

lemma splitRun_glue : ∀ (items : List (List Char × List Char)) (ws0 : List Char) (pos : Nat),
    wsOnly ws0 = true →
    (∀ p ∈ items, isObjChunk p.1 = true ∧ wsOnly p.2 = true) →
    splitRun initState pos (glue ws0 items) = (initState, expectedSpans pos ws0 items) := by
  intro items
  induction items with
  | nil =>
    intro ws0 pos hws _
    rw [show glue ws0 [] = ws0 from rfl, splitRun_ws ws0 pos hws]
    rfl
  | cons item rest ih =>
    intro ws0 pos hws hitems
    obtain ⟨hobj, hw⟩ := hitems item (List.mem_cons_self _ _)
    have hrest : ∀ p ∈ rest, isObjChunk p.1 = true ∧ wsOnly p.2 = true :=
      fun p hp => hitems p (List.mem_cons_of_mem _ hp)
    rw [show glue ws0 (item :: rest) = ws0 ++ (item.1 ++ glue item.2 rest) from by
      simp [glue]]
    rw [splitRun_append, splitRun_ws ws0 pos hws]
    rw [splitRun_append, splitRun_obj item.1 (pos + ws0.length) hobj]
    rw [ih item.2 (pos + ws0.length + item.1.length) hw hrest]
    simp [expectedSpans]

end Xtdb

namespace Xtdb

/-- Claim C4: on any byte buffer that concatenates zero or more
whitespace-separated top-level JSON objects, the splitter loop yields
exactly one span per object, running from the opening brace seen at depth
0 to 1 through the matching closing brace inclusive; empty input yields no
spans; while escape-next is set the byte is consumed with no state or span
effect; and inside a string literal braces do not affect the depth while a
backslash sets escape-next (so the following byte, e.g. an escaped quote,
is skipped and does not toggle the in-string state). -/
theorem c4_json_splitter (ws0 : List Char) (items : List (List Char × List Char))
    (hws : wsOnly ws0 = true)
    (hitems : ∀ p ∈ items, isObjChunk p.1 = true ∧ wsOnly p.2 = true) :
    splitObjects (glue ws0 items) = expectedSpans 0 ws0 items ∧
    splitObjects [] = [] ∧
    (∀ (s : SplitState) (i : Nat) (c : Char), s.escapeNext = true →
      splitStep s i c = ({ s with escapeNext := false }, none)) ∧
    (∀ (s : SplitState) (i : Nat), s.inString = true → s.escapeNext = false →
      splitStep s i '\x7b' = (s, none) ∧ splitStep s i '\x7d' = (s, none) ∧
      splitStep s i '\\' = ({ s with escapeNext := true }, none)) := by
  refine ⟨?_, rfl, ?_, ?_⟩
  · unfold splitObjects
    rw [splitRun_glue items ws0 0 hws hitems]
  · intro s i c h
    unfold splitStep
    rw [if_pos h]
  · intro s i hstr hesc
    refine ⟨?_, ?_, ?_⟩ <;> simp [splitStep, hstr, hesc]

/-- Claim C4 witness: a concrete glued buffer, a single object between one
leading space and one trailing newline, on which the splitter yields the
single expected span. -/
theorem c4_json_splitter_witness :
    wsOnly (" ".toList) = true ∧
    (∀ p ∈ [(("\x7b\x7d".toList), ("\n".toList))],
      isObjChunk p.1 = true ∧ wsOnly p.2 = true) ∧
    (splitObjects (glue (" ".toList) [(("\x7b\x7d".toList), ("\n".toList))]) =
        expectedSpans 0 (" ".toList) [(("\x7b\x7d".toList), ("\n".toList))] ∧
      splitObjects [] = [] ∧
      (∀ (s : SplitState) (i : Nat) (c : Char), s.escapeNext = true →
        splitStep s i c = ({ s with escapeNext := false }, none)) ∧
      (∀ (s : SplitState) (i : Nat), s.inString = true → s.escapeNext = false →
        splitStep s i '\x7b' = (s, none) ∧ splitStep s i '\x7d' = (s, none) ∧
        splitStep s i '\\' = ({ s with escapeNext := true }, none))) :=
  ⟨by decide, by decide,
    c4_json_splitter (" ".toList) [(("\x7b\x7d".toList), ("\n".toList))]
      (by decide) (by decide)⟩

/-- Claim C5 counterexample: the buffer consisting of three complete
objects followed by a trailing unbalanced opening brace leaves the scanner
at final depth 1, yet test_json_with_oid passes on it (with a healthy
server): no framing error is detected and no failure is recorded,
contradicting the claim. -/
theorem c5_framing_counterexample :
    (splitRun initState 0 c5Content).1.braceCount = 1 ∧
    test_json_with_oid
      (JsonEnv.mk true c5Content (fun _ => true) true true goodResultData) = true := by
  constructor
  · decide
  · decide

/-- Claim C5 (amended): the harness contains no framing-error detection: a
trailing unbalanced opening brace after the objects yields no span and is
silently ignored, and the only way unbalanced input can fail the test is
indirectly, through the inserted-count assertion — the test can pass only
when the splitter yielded exactly 3 spans. -/
theorem c5_no_framing_detection (ws0 : List Char) (items : List (List Char × List Char))
    (hws : wsOnly ws0 = true)
    (hitems : ∀ p ∈ items, isObjChunk p.1 = true ∧ wsOnly p.2 = true) :
    splitObjects (glue ws0 items ++ ('\x7b' :: [])) = expectedSpans 0 ws0 items ∧
    (∀ e : JsonEnv, test_json_with_oid e = true → (splitObjects e.content).length = 3) := by
  constructor
  · unfold splitObjects
    rw [splitRun_append, splitRun_glue items ws0 0 hws hitems]
    have hbrace : ∀ L : Nat, splitRun initState L ('\x7b' :: []) =
        (⟨1, some L, false, false⟩, []) := fun L => rfl
    rw [hbrace]
    simp
  · intro e he
    unfold test_json_with_oid at he
    by_cases hf : e.fileOpens = false
    · rw [if_pos hf] at he
      exact absurd he (by simp)
    · rw [if_neg hf] at he
      cases hrun : runInserts e.insertOk (splitObjects e.content) 0 with
      | none =>
        rw [hrun] at he
        exact absurd he (by simp)
      | some n =>
        rw [hrun] at he
        simp only [Bool.and_eq_true, beq_iff_eq] at he
        have hn : n = 3 := he.1.1.1
        have hlen := runInserts_some e.insertOk (splitObjects e.content) 0 n hrun
        omega

/-- Claim C5 witness: a concrete buffer of three objects plus a trailing
unbalanced brace, on which the splitter yields exactly the three object
spans, and a concrete passing environment for the count implication. -/
theorem c5_no_framing_detection_witness :
    wsOnly ([] : List Char) = true ∧
    (∀ p ∈ [(("\x7b\x7d".toList), (" ".toList)), (("\x7b\x7d".toList), (" ".toList)),
        (("\x7b\x7d".toList), ([] : List Char))],
      isObjChunk p.1 = true ∧ wsOnly p.2 = true) ∧
    (splitObjects (glue []
        [(("\x7b\x7d".toList), (" ".toList)), (("\x7b\x7d".toList), (" ".toList)),
          (("\x7b\x7d".toList), ([] : List Char))] ++ ('\x7b' :: [])) =
        expectedSpans 0 []
          [(("\x7b\x7d".toList), (" ".toList)), (("\x7b\x7d".toList), (" ".toList)),
            (("\x7b\x7d".toList), ([] : List Char))] ∧
      (∀ e : JsonEnv, test_json_with_oid e = true → (splitObjects e.content).length = 3)) :=
  ⟨by decide, by decide,
    c5_no_framing_detection []
      [(("\x7b\x7d".toList), (" ".toList)), (("\x7b\x7d".toList), (" ".toList)),
        (("\x7b\x7d".toList), ([] : List Char))]
      (by decide) (by decide)⟩

/-- Claim C9 witness: a concrete healthy environment, one valid trade and
an empty starting state, instantiating the atomicity theorem. -/
theorem c9_batch_atomicity_witness :
    (DBState.mk [] [] false).pending = [] ∧
    (((insert_trades_batch (BatchEnv.mk true true true (fun _ => true) (fun _ => false))
        (some (([TradeInfo.mk 1 (some ("Trade1")) 1001 (some ("info1"))]).map some))
        (DBState.mk [] [] false)).1 =
      ((BatchEnv.mk true true true (fun _ => true) (fun _ => false)).connOk &&
        !([TradeInfo.mk 1 (some ("Trade1")) 1001 (some ("info1"))] :
            List TradeInfo).isEmpty &&
        (BatchEnv.mk true true true (fun _ => true) (fun _ => false)).beginOk &&
        loopGood (BatchEnv.mk true true true (fun _ => true) (fun _ => false))
          (([TradeInfo.mk 1 (some ("Trade1")) 1001 (some ("info1"))]).map some) 0 &&
        (BatchEnv.mk true true true (fun _ => true) (fun _ => false)).commitOk)) ∧
    ((insert_trades_batch (BatchEnv.mk true true true (fun _ => true) (fun _ => false))
        (some (([TradeInfo.mk 1 (some ("Trade1")) 1001 (some ("info1"))]).map some))
        (DBState.mk [] [] false)).1 = true →
      ((insert_trades_batch (BatchEnv.mk true true true (fun _ => true) (fun _ => false))
        (some (([TradeInfo.mk 1 (some ("Trade1")) 1001 (some ("info1"))]).map some))
        (DBState.mk [] [] false)).2).committed =
        (DBState.mk [] [] false).committed ++
          [TradeInfo.mk 1 (some ("Trade1")) 1001 (some ("info1"))]) ∧
    ((insert_trades_batch (BatchEnv.mk true true true (fun _ => true) (fun _ => false))
        (some (([TradeInfo.mk 1 (some ("Trade1")) 1001 (some ("info1"))]).map some))
        (DBState.mk [] [] false)).1 = false →
      ((insert_trades_batch (BatchEnv.mk true true true (fun _ => true) (fun _ => false))
        (some (([TradeInfo.mk 1 (some ("Trade1")) 1001 (some ("info1"))]).map some))
        (DBState.mk [] [] false)).2).committed = (DBState.mk [] [] false).committed)) :=
  ⟨rfl, c9_batch_atomicity (BatchEnv.mk true true true (fun _ => true) (fun _ => false))
    [TradeInfo.mk 1 (some ("Trade1")) 1001 (some ("info1"))] (DBState.mk [] [] false) rfl⟩

end Xtdb
